import Mathlib

/-!
# Verification of the stock-dashboard data-transformation core

A shallow embedding of the data model and the transformation logic of
`src/app.py` (a Streamlit dashboard script), together with theorems about
the shaping, normalization, moving-average and export behaviour.

Conventions of the embedding:
* pandas/yfinance tabular data is modelled structurally: a per-symbol
  `Series` is a list of `(date, row)` pairs (the date index made explicit),
  dates are `Nat` ordinals, prices are `ℚ` (exact arithmetic standing in
  for floating point), volumes are `ℕ`;
* the UI side effects of the script (`st.error`, `st.warning`, `st.dataframe`,
  `st.plotly_chart`, `st.download_button`, `st.stop`) are recorded as an
  ordered list of `Effect` values produced by a pure driver `runApp`;
* fallible operations (`raw_data[symbol]` on a missing key, the network
  fetch) are `Except`/`Option` valued.
-/

/-- One row of the OHLCV frame returned by the fetch collaborator, before any
date or symbol column is materialized (`app.py` works with frames whose
columns are Open, High, Low, Close, Volume and whose index is the date). -/
structure RawRow where
  Open : ℚ
  High : ℚ
  Low : ℚ
  Close : ℚ
  Volume : ℕ
deriving DecidableEq

/-- A per-symbol series: the date-indexed OHLCV frame, with the index made
explicit as the first component of each pair. -/
abbrev Series := List (Nat × RawRow)

/-- The polymorphic fetch result (`yf.download` grouped by ticker):
one frame for a single-symbol request, a symbol-keyed mapping of frames for
a multi-symbol request. -/
inductive RawFetchResult where
  | single (s : Series)
  | multiple (m : List (String × Series))

/-- One row of the shaped tidy table: symbol tag, explicit date field, and
the OHLCV payload (`app.py` lines 36-40 and 86-91). -/
structure Observation where
  symbol : String
  date : Nat
  Open : ℚ
  High : ℚ
  Low : ℚ
  Close : ℚ
  Volume : ℕ
deriving DecidableEq

/-- Python `str.strip`: drop whitespace from both ends. -/
def pyStrip (s : List Char) : List Char :=
  ((s.dropWhile Char.isWhitespace).reverse.dropWhile Char.isWhitespace).reverse

/-- Python `str.upper` on an ASCII ticker string: character-wise upper-casing. -/
def pyUpper (s : List Char) : List Char :=
  s.map Char.toUpper

/-- `app.py` line 15:
`[sym.strip().upper() for sym in symbol_input.split(",") if sym.strip()]`:
split the raw input on commas, and for each piece that is nonempty after
stripping, keep its stripped upper-cased form. -/
def normalizeSymbols (input : String) : List String :=
  (input.toList.splitOn ',').filterMap fun piece =>
    let t := pyStrip piece
    if t.isEmpty then none else some (String.mk (pyUpper t))

/-- The normalization pipeline exactly as the specification words it: split on
commas, trim whitespace from each entry, upper-case each entry, drop the
entries that are empty, preserving left-to-right order. -/
def specNormalizeSymbols (input : String) : List String :=
  ((((input.toList.splitOn ',').map pyStrip).map pyUpper).filter
    fun t => ¬ t.isEmpty).map String.mk

/-- `app.py` line 67: `df["Close"].rolling(window=7).mean()` generalized to a
window `w`: position `i` is undefined while fewer than `w` values are
available, and from position `w - 1` on it is the mean of the `w` values
ending at `i`. -/
def rollingMean (w : Nat) (xs : List ℚ) : List (Option ℚ) :=
  (List.range xs.length).map fun i =>
    if i + 1 < w then none
    else some (((xs.drop (i + 1 - w)).take w).sum / (w : ℚ))

/-- The 7-day moving average of the close column, as computed by the script. -/
def movingAverage (closes : List ℚ) : List (Option ℚ) :=
  rollingMean 7 closes

theorem filterMap_strip_upper (ps : List (List Char)) :
    (ps.filterMap fun piece =>
      let t := pyStrip piece
      if t.isEmpty then none else some (String.mk (pyUpper t))) =
    (((ps.map pyStrip).map pyUpper).filter fun t => ¬ t.isEmpty).map
      String.mk := by
  induction ps with
  | nil => rfl
  | cons p ps ih =>
    by_cases h : (pyStrip p).isEmpty
    · have h2 : (pyUpper (pyStrip p)).isEmpty = true := by
        rw [List.isEmpty_iff] at h ⊢
        simp [pyUpper, h]
      simp only [List.filterMap_cons, List.map_cons, List.filter_cons, h, h2]
      simpa using ih
    · have h0 : pyStrip p ≠ [] := fun e => h (List.isEmpty_iff.mpr e)
      have h2 : (pyUpper (pyStrip p)).isEmpty = false := by
        rw [Bool.eq_false_iff]
        intro hc
        exact h0 (by simpa [pyUpper, List.isEmpty_iff] using hc)
      simp only [List.filterMap_cons, List.map_cons, List.filter_cons, h, h2]
      simpa using ih

/-- C9: the resolved symbol list is obtained by splitting the raw input on
commas, trimming whitespace from each entry, upper-casing each entry, and
dropping entries that are empty after trimming, preserving the left-to-right
order of the remaining entries. -/
theorem normalizeSymbols_eq_spec (input : String) :
    normalizeSymbols input = specNormalizeSymbols input := by
  unfold normalizeSymbols specNormalizeSymbols
  exact filterMap_strip_upper (input.toList.splitOn ',')

theorem rollingMean_length (w : Nat) (xs : List ℚ) :
    (rollingMean w xs).length = xs.length := by
  simp [rollingMean]

theorem rollingMean_getElem (w : Nat) (xs : List ℚ) (i : Nat)
    (h : i < xs.length) :
    (rollingMean w xs)[i]? =
      some (if i + 1 < w then none
        else some (((xs.drop (i + 1 - w)).take w).sum / (w : ℚ))) := by
  simp [rollingMean, List.getElem?_map, List.getElem?_range h]

/-- C2: the moving average is undefined (`none`) at 0-based positions `i < 6`,
and at every position `i ≥ 6` it is the arithmetic mean of the seven close
values at indices `i-6 .. i`; for a constant close series it equals the
constant at every position `i ≥ 6`. -/
theorem movingAverage_spec :
    (∀ (xs : List ℚ) (i : Nat), i < xs.length →
      (i < 6 → (movingAverage xs)[i]? = some none) ∧
      (6 ≤ i → (movingAverage xs)[i]? =
        some (some (((xs.drop (i - 6)).take 7).sum / 7)))) ∧
    (∀ (c : ℚ) (n i : Nat), 6 ≤ i → i < n →
      (movingAverage (List.replicate n c))[i]? = some (some c)) := by
  have key : ∀ (xs : List ℚ) (i : Nat), i < xs.length →
      (i < 6 → (movingAverage xs)[i]? = some none) ∧
      (6 ≤ i → (movingAverage xs)[i]? =
        some (some (((xs.drop (i - 6)).take 7).sum / 7))) := by
    intro xs i h
    constructor
    · intro hi
      rw [movingAverage, rollingMean_getElem 7 xs i h, if_pos (by omega)]
    · intro hi
      rw [movingAverage, rollingMean_getElem 7 xs i h, if_neg (by omega)]
      have e : i + 1 - 7 = i - 6 := by omega
      rw [e]
      norm_num
  refine ⟨key, ?_⟩
  intro c n i h6 hn
  have h := (key (List.replicate n c) i (by simpa using hn)).2 h6
  rw [h]
  have hdrop : (List.replicate n c : List ℚ).drop (i - 6) =
      List.replicate (n - (i - 6)) c := List.drop_replicate ..
  have htake : (List.replicate (n - (i - 6)) c : List ℚ).take 7 =
      List.replicate 7 c := by
    rw [List.take_replicate]
    congr 1
    omega
  rw [hdrop, htake]
  congr 2
  rw [List.sum_replicate]
  ring_nf

/-- Witness for C2 at concrete inputs: position 2 of a 7-point series is
undefined, position 6 is the mean of all seven closes, and a constant series
of value 5 has moving average 5 at position 7. -/
theorem movingAverage_spec_witness :
    (movingAverage [1, 2, 3, 4, 5, 6, 7])[2]? = some none ∧
    (movingAverage [1, 2, 3, 4, 5, 6, 7])[6]? =
      some (some (((([1, 2, 3, 4, 5, 6, 7] : List ℚ).drop (6 - 6)).take
        7).sum / 7)) ∧
    (movingAverage (List.replicate 8 (5 : ℚ)))[7]? = some (some 5) :=
  ⟨(movingAverage_spec.1 [1, 2, 3, 4, 5, 6, 7] 2 (by decide)).1 (by decide),
   (movingAverage_spec.1 [1, 2, 3, 4, 5, 6, 7] 6 (by decide)).2 (by decide),
   movingAverage_spec.2 5 8 7 (by decide) (by decide)⟩

/-- `app.py` line 88: `raw_data[symbol]` on the symbol-keyed fetch mapping;
`none` models the `KeyError` case of a symbol absent from the mapping. -/
def lookupSeries (raw : List (String × Series)) (sym : String) : Option Series :=
  (raw.find? fun p => p.1 == sym).map Prod.snd

/-- Build one tidy row: the requested symbol tag, the date taken from the
series index, and the OHLCV payload. -/
def mkObservation (sym : String) (d : Nat) (r : RawRow) : Observation :=
  ⟨sym, d, r.Open, r.High, r.Low, r.Close, r.Volume⟩

/-- Single-symbol shaping (`app.py` lines 37-38): `df.reset_index()`
materializes the date index as an explicit field on every row; the rows of
the resulting tidy table carry the one requested symbol as their tag. -/
def shapeSingle (sym : String) (s : Series) : List Observation :=
  s.map fun p => mkObservation sym p.1 p.2

/-- Multi-symbol shaping loop (`app.py` lines 86-91): starting from an empty
frame, for each requested symbol in order, index the fetch mapping by the
symbol (raising `KeyError` when absent), tag the rows with the symbol and
the materialized date, and append them to the accumulated frame. -/
def shapeMulti : List String → List (String × Series) →
    Except String (List Observation)
  | [], _ => Except.ok []
  | sym :: rest, raw =>
    match lookupSeries raw sym with
    | none => Except.error ("KeyError: " ++ sym)
    | some s => (shapeMulti rest raw).map fun t => shapeSingle sym s ++ t

/-- The Shaper contract `shape(raw, symbols)`: the script branches on
`len(symbols) == 1` (`app.py` line 36), using the single-frame path for a
one-element request and the symbol-keyed loop otherwise; a fetch result whose
shape does not match the request cardinality has no counterpart in the
script and is modelled as an error. -/
def shape (raw : RawFetchResult) (symbols : List String) :
    Except String (List Observation) :=
  if symbols.length == 1 then
    match raw, symbols with
    | RawFetchResult.single s, sym :: _ => Except.ok (shapeSingle sym s)
    | _, _ => Except.error "shape mismatch"
  else
    match raw with
    | RawFetchResult.multiple m => shapeMulti symbols m
    | RawFetchResult.single _ => Except.error "shape mismatch"

/-- The series that the fetch mapping holds for a symbol (empty if absent). -/
def presentSeries (raw : List (String × Series)) (sym : String) : Series :=
  (lookupSeries raw sym).getD []

theorem shapeSingle_length (sym : String) (s : Series) :
    (shapeSingle sym s).length = s.length := by
  simp [shapeSingle]

theorem shapeSingle_map_date (sym : String) (s : Series) :
    (shapeSingle sym s).map Observation.date = s.map Prod.fst := by
  simp [shapeSingle, mkObservation]

theorem shapeSingle_map_symbol (sym : String) (s : Series) :
    (shapeSingle sym s).map Observation.symbol =
      List.replicate s.length sym := by
  induction s with
  | nil => rfl
  | cons p ps ih =>
    simpa [shapeSingle, mkObservation, List.replicate_succ] using ih

theorem shapeSingle_getElem (sym : String) (s : Series) (i : Nat) :
    (shapeSingle sym s)[i]? = (s[i]?).map fun p => mkObservation sym p.1 p.2 := by
  simp [shapeSingle, List.getElem?_map]

/-- C4: for a one-element symbol list and a single-Series fetch result,
`shape` succeeds and produces exactly one row per input Observation, in the
date order of the input, each row tagged with the requested symbol and carrying
the date index of the series as an explicit `date` field. -/
theorem shape_single_symbol_spec (sym : String) (s : Series) :
    shape (RawFetchResult.single s) [sym] = Except.ok (shapeSingle sym s) ∧
    (shapeSingle sym s).length = s.length ∧
    (shapeSingle sym s).map Observation.date = s.map Prod.fst ∧
    (shapeSingle sym s).map Observation.symbol =
      List.replicate s.length sym ∧
    ∀ i : Nat, (shapeSingle sym s)[i]? =
      (s[i]?).map fun p => mkObservation sym p.1 p.2 :=
  ⟨rfl, shapeSingle_length sym s, shapeSingle_map_date sym s,
    shapeSingle_map_symbol sym s, shapeSingle_getElem sym s⟩

/-- A concrete two-day series standing in for fetched AAPL data. -/
def aaplSeries : Series :=
  [(0, ⟨100, 110, 90, 105, 1000⟩), (1, ⟨105, 115, 95, 108, 1200⟩)]

/-- A concrete one-day series standing in for fetched MSFT data. -/
def msftSeries : Series :=
  [(0, ⟨200, 210, 195, 205, 2000⟩)]

/-- Counterexample to C1: with `symbols = ["AAPL", "ZZZZ"]` and a fetch
mapping containing only `"AAPL"`, the multi-symbol shaping loop raises a
`KeyError` on the absent symbol instead of silently omitting it; no output
table is produced. -/
theorem shapeMulti_missing_symbol_cex :
    shapeMulti ["AAPL", "ZZZZ"] [("AAPL", aaplSeries)] =
      Except.error "KeyError: ZZZZ" := by
  rfl

/-- C1 (amended): whenever some requested symbol is absent from the fetch
mapping, the multi-symbol shaping loop fails with an error (the `KeyError`
raised by indexing the mapping); shaping does not complete. -/
theorem shapeMulti_missing_symbol (symbols : List String)
    (raw : List (String × Series)) (sym : String)
    (h1 : sym ∈ symbols) (h2 : lookupSeries raw sym = none) :
    ∃ e, shapeMulti symbols raw = Except.error e := by
  induction symbols with
  | nil => cases h1
  | cons a rest ih =>
    cases ha : lookupSeries raw a with
    | none => exact ⟨_, by rw [shapeMulti, ha]⟩
    | some s =>
      have hsym : sym ∈ rest := by
        rcases List.mem_cons.mp h1 with h | h
        · subst h; rw [h2] at ha; cases ha
        · exact h
      obtain ⟨e, he⟩ := ih hsym
      refine ⟨e, ?_⟩
      rw [shapeMulti, ha, he]
      rfl

/-- Witness for the amended C1 at a concrete input: requesting MSFT together
with an unknown symbol against a mapping holding only MSFT makes the shaping
loop fail. -/
theorem shapeMulti_missing_symbol_witness :
    ∃ e, shapeMulti ["MSFT", "QQQQ"] [("MSFT", msftSeries)] =
      Except.error e :=
  shapeMulti_missing_symbol ["MSFT", "QQQQ"] [("MSFT", msftSeries)] "QQQQ"
    (by decide) (by rfl)

/-- Counterexample to C5: for the multi-symbol request `["MSFT", "ZZZZ"]`
with only MSFT present in the fetch mapping, no output table exists at all
(the loop raises), so the output row count does not equal the series length of the present
symbol. -/
theorem shapeMulti_row_count_cex :
    shapeMulti ["MSFT", "ZZZZ"] [("MSFT", msftSeries)] =
      Except.error "KeyError: ZZZZ" := by
  rfl

/-- C5 (amended): for a multi-symbol request in which every requested symbol
is present in the fetch mapping, shaping succeeds, the output is the
concatenation of the per-symbol blocks in requested order, the row count is
the sum of the series lengths, and within each block the symbol tag is
constant and the dates are exactly the dates of the input series in input order
(hence ascending whenever the input series is ascending). -/
theorem shapeMulti_all_present (symbols : List String)
    (raw : List (String × Series))
    (h : ∀ sym ∈ symbols, (lookupSeries raw sym).isSome) :
    shapeMulti symbols raw =
      Except.ok (symbols.flatMap fun sym =>
        shapeSingle sym (presentSeries raw sym)) ∧
    (symbols.flatMap fun sym =>
        shapeSingle sym (presentSeries raw sym)).length =
      (symbols.map fun sym => (presentSeries raw sym).length).sum ∧
    (∀ sym, (shapeSingle sym (presentSeries raw sym)).map Observation.symbol =
      List.replicate (presentSeries raw sym).length sym) ∧
    (∀ sym, (shapeSingle sym (presentSeries raw sym)).map Observation.date =
      (presentSeries raw sym).map Prod.fst) ∧
    (∀ sym, List.Chain' (· < ·) ((presentSeries raw sym).map Prod.fst) →
      List.Chain' (· < ·)
        ((shapeSingle sym (presentSeries raw sym)).map Observation.date)) := by
  refine ⟨?_, ?_, fun sym => shapeSingle_map_symbol sym _,
    fun sym => shapeSingle_map_date sym _, fun sym hasc => ?_⟩
  · induction symbols with
    | nil => rfl
    | cons a rest ih =>
      obtain ⟨s, hs⟩ := Option.isSome_iff_exists.mp
        (h a (List.mem_cons_self a rest))
      rw [shapeMulti, hs, ih fun sym hm => h sym (List.mem_cons_of_mem _ hm)]
      simp [List.flatMap_cons, presentSeries, hs, Except.map]
  · rw [List.length_flatMap]
    apply congrArg List.sum
    apply List.map_congr_left
    intro a _
    simp [shapeSingle]
  · rw [shapeSingle_map_date]
    exact hasc

/-- Witness for the amended C5: a concrete two-symbol request with both
symbols present shapes to the AAPL block followed by the MSFT block, with
three rows in total. -/
theorem shapeMulti_all_present_witness :
    shapeMulti ["AAPL", "MSFT"] [("AAPL", aaplSeries), ("MSFT", msftSeries)] =
      Except.ok (["AAPL", "MSFT"].flatMap fun sym =>
        shapeSingle sym
          (presentSeries [("AAPL", aaplSeries), ("MSFT", msftSeries)] sym)) ∧
    (["AAPL", "MSFT"].flatMap fun sym =>
        shapeSingle sym
          (presentSeries [("AAPL", aaplSeries), ("MSFT", msftSeries)]
            sym)).length =
      (["AAPL", "MSFT"].map fun sym =>
        (presentSeries [("AAPL", aaplSeries), ("MSFT", msftSeries)]
          sym).length).sum :=
  ⟨(shapeMulti_all_present ["AAPL", "MSFT"]
      [("AAPL", aaplSeries), ("MSFT", msftSeries)] (by decide)).1,
   (shapeMulti_all_present ["AAPL", "MSFT"]
      [("AAPL", aaplSeries), ("MSFT", msftSeries)] (by decide)).2.1⟩

/-- The column order of the per-symbol OHLCV frame produced by the fetch
collaborator. Modelled from the spec: the external `yf.download` call is not
part of the repository; the data model of the spec fixes the per-symbol frame to
the OHLCV fields in that order, with the date as the index of the frame. -/
def rawColumns : List String := ["Open", "High", "Low", "Close", "Volume"]

/-- pandas `reset_index()` (`app.py` line 38): the date index becomes the
first column, named `Date`. -/
def resetIndexCols (cols : List String) : List String := "Date" :: cols

/-- pandas column assignment `df[c] = ...` (`app.py` lines 89-90): an
existing column is overwritten in place; a new column is appended at the
right end of the frame. -/
def assignCol (cols : List String) (c : String) : List String :=
  if c ∈ cols then cols else cols ++ [c]

/-- Columns of the single-symbol export frame (`app.py` lines 37-38, 81):
the raw frame after `reset_index()`. -/
def singleCols : List String := resetIndexCols rawColumns

/-- Columns of the multi-symbol export frame (`app.py` lines 88-91, 126):
the raw per-symbol columns with `Symbol` and then `Date` assigned, hence
appended at the end. -/
def multiCols : List String := assignCol (assignCol rawColumns "Symbol") "Date"

/-- The explicitly reordered column list used only for the on-screen preview
of the multi-symbol frame (`app.py` line 94). -/
def multiPreviewCols : List String :=
  ["Date", "Symbol", "Open", "High", "Low", "Close", "Volume"]

/-- Export file name for a single-symbol request (`app.py` line 82). -/
def singleFileName (sym : String) : String := sym ++ "_stock_data.csv"

/-- Export file name for a multi-symbol request (`app.py` line 127). -/
def multiFileName : String := "multi_stock_data.csv"

/-- Counterexample to C3: the multi-symbol CSV serializes the concatenated
frame itself, whose `Symbol` and `Date` columns sit at the right end, so its
header is not `Date,Symbol,Open,High,Low,Close,Volume` (that order is used
only for the on-screen preview). -/
theorem multi_csv_header_cex :
    multiCols ≠ ["Date", "Symbol", "Open", "High", "Low", "Close", "Volume"] := by
  decide

/-- C3 (amended): the single-symbol CSV header is
`Date,Open,High,Low,Close,Volume` (the `Symbol` column is omitted), the
multi-symbol CSV header is `Open,High,Low,Close,Volume,Symbol,Date` (the
`Symbol` and `Date` columns appended after the OHLCV columns, not leading),
and the file names are `<SYMBOL>_stock_data.csv` and
`multi_stock_data.csv`. -/
theorem csv_headers_and_filenames :
    singleCols = ["Date", "Open", "High", "Low", "Close", "Volume"] ∧
    multiCols = ["Open", "High", "Low", "Close", "Volume", "Symbol", "Date"] ∧
    (∀ sym : String, singleFileName sym = sym ++ "_stock_data.csv") ∧
    singleFileName "AAPL" = "AAPL_stock_data.csv" ∧
    multiFileName = "multi_stock_data.csv" :=
  ⟨rfl, by decide, fun _ => rfl, rfl, rfl⟩

theorem notMem_intercalate_singleton {α : Type} [DecidableEq α]
    (sep x : α) (ls : List (List α))
    (h1 : ∀ l ∈ ls, x ∉ l) (h2 : x ≠ sep) :
    x ∉ [sep].intercalate ls := by
  induction ls with
  | nil => simp [List.intercalate]
  | cons a tl ih =>
    cases tl with
    | nil =>
      have : ([sep] : List α).intercalate [a] = a := by
        simp [List.intercalate]
      rw [this]
      exact h1 a (by simp)
    | cons b tl2 =>
      have heq : ([sep] : List α).intercalate (a :: b :: tl2) =
          a ++ sep :: [sep].intercalate (b :: tl2) := by
        simp [List.intercalate, List.intersperse_cons_cons]
      rw [heq]
      intro hmem
      rcases List.mem_append.mp hmem with h | h
      · exact h1 a (by simp) h
      · rcases List.mem_cons.mp h with h | h
        · exact h2 h
        · exact ih (fun l hl => h1 l (List.mem_cons_of_mem _ hl)) h

/-- One CSV record: the cells joined by the comma separator (the `to_csv`
default). -/
def csvLine (cells : List (List Char)) : List Char :=
  [','].intercalate cells

/-- `df.to_csv(index=False)`: the records (header first, then one record per
row) joined by newlines. -/
def csvText (records : List (List (List Char))) : List Char :=
  ['\n'].intercalate (records.map csvLine)

/-- Re-parse comma-separated text: split into records on newlines, then each
record into cells on commas. -/
def parseCsv (s : List Char) : List (List (List Char)) :=
  (s.splitOn '\n').map fun line => line.splitOn ','

/-- The CSV export of a tidy table: the header record followed by one record
per row, each row rendered cell-wise by the value formatter `fmt`. -/
def exportCsv (header : List (List Char))
    (fmt : Observation → List (List Char)) (t : List Observation) :
    List Char :=
  csvText (header :: t.map fmt)

theorem parseCsv_csvText (records : List (List (List Char)))
    (hrec : ∀ r ∈ records, r ≠ [] ∧ ∀ cell ∈ r, ',' ∉ cell ∧ '\n' ∉ cell)
    (hne : records ≠ []) :
    parseCsv (csvText records) = records := by
  unfold parseCsv csvText
  have h1 : ∀ line ∈ records.map csvLine, '\n' ∉ line := by
    intro line hl
    obtain ⟨r, hr, rfl⟩ := List.mem_map.mp hl
    exact notMem_intercalate_singleton ',' '\n' r
      (fun cell hc => ((hrec r hr).2 cell hc).2) (by decide)
  rw [List.splitOn_intercalate (records.map csvLine) '\n' h1
    (by simpa using hne)]
  have h2 : ∀ r ∈ records, (csvLine r).splitOn ',' = r := by
    intro r hr
    exact List.splitOn_intercalate r ','
      (fun cell hc => ((hrec r hr).2 cell hc).1) (hrec r hr).1
  rw [List.map_map]
  calc records.map ((fun line => line.splitOn ',') ∘ csvLine)
      = records.map id := List.map_congr_left fun r hr => h2 r hr
    _ = records := List.map_id records

/-- C7: re-parsing the comma-separated export of a tidy table yields exactly
the header record followed by the formatted image of every original row in
order — the same tuples as the original table, up to the textual formatting
`fmt` — provided no formatted cell (nor header cell) contains a separator
character, and every record is non-degenerate (non-empty cell list). -/
theorem csv_roundtrip (header : List (List Char))
    (fmt : Observation → List (List Char)) (t : List Observation)
    (hh1 : header ≠ [])
    (hh2 : ∀ cell ∈ header, ',' ∉ cell ∧ '\n' ∉ cell)
    (hf1 : ∀ o ∈ t, fmt o ≠ [])
    (hf2 : ∀ o ∈ t, ∀ cell ∈ fmt o, ',' ∉ cell ∧ '\n' ∉ cell) :
    parseCsv (exportCsv header fmt t) = header :: t.map fmt := by
  unfold exportCsv
  apply parseCsv_csvText
  · intro r hr
    rcases List.mem_cons.mp hr with h | h
    · subst h
      exact ⟨hh1, hh2⟩
    · obtain ⟨o, ho, rfl⟩ := List.mem_map.mp h
      exact ⟨hf1 o ho, hf2 o ho⟩
  · simp

/-- A concrete two-row tidy table used to witness the round-trip theorem. -/
def demoTable : List Observation :=
  [⟨"AAPL", 0, 100, 110, 90, 105, 1000⟩, ⟨"MSFT", 1, 200, 210, 195, 205, 2000⟩]

/-- A concrete cell formatter for the witness: the symbol and a digit for
the date ordinal. -/
def demoFmt (o : Observation) : List (List Char) :=
  [o.symbol.toList, [Nat.digitChar o.date]]

/-- Witness for C7 at a concrete table, formatter and header: the parse of
the export is the header record followed by the formatted rows. -/
theorem csv_roundtrip_witness :
    parseCsv (exportCsv [['S'], ['D']] demoFmt demoTable) =
      [['S'], ['D']] :: demoTable.map demoFmt :=
  csv_roundtrip [['S'], ['D']] demoFmt demoTable (by decide) (by decide)
    (by decide) (by decide)

/-- A user-visible side effect of one script run, in emission order: the
spinner-wrapped fetch attempt, `st.error`, `st.warning`, the `st.dataframe`
preview, an `st.plotly_chart` (recorded by title and trace names), the
`st.download_button` payload (file name, frame columns, frame rows), or an
uncaught Python exception. -/
inductive Effect where
  | fetchAttempt (symbols : List String)
  | errorMsg (msg : String)
  | warning (msg : String)
  | preview (cols : List String) (rows : List Observation)
  | chart (title : String) (traces : List String)
  | download (file : String) (cols : List String) (rows : List Observation)
  | crash (msg : String)
deriving DecidableEq

/-- The prompt shown when no valid symbol remains (`app.py` line 129). -/
def promptMsg : String := "Please enter at least one valid stock symbol."

/-- The single-symbol page (`app.py` lines 36-82): preview of the first five
rows, candlestick chart, close-price line chart whose trace list carries the
7-day moving-average overlay exactly when the checkbox is on, volume chart,
and the CSV download of the shaped frame. -/
def singleEffects (sym : String) (s : Series) (showMa : Bool) : List Effect :=
  [Effect.preview singleCols ((shapeSingle sym s).take 5),
   Effect.chart (sym ++ " Candlestick Chart") [sym],
   Effect.chart "Closing Price Trend"
     (if showMa then ["Close", "7-Day MA"] else ["Close"]),
   Effect.chart "Trading Volume" ["Volume"],
   Effect.download (singleFileName sym) singleCols (shapeSingle sym s)]

/-- The multi-symbol page (`app.py` lines 93-127): preview of the first five
rows in the explicitly reordered column list, two comparison charts with one
trace per symbol, and the CSV download of the concatenated frame. -/
def multiEffects (symbols : List String) (rows : List Observation) :
    List Effect :=
  [Effect.preview multiPreviewCols (rows.take 5),
   Effect.chart "Closing Price Over Time" symbols,
   Effect.chart "Volume Traded Over Time" symbols,
   Effect.download multiFileName multiCols rows]

/-- The script driver (`app.py` lines 27-129): resolve the symbols; when none
remain, emit the prompt; otherwise attempt the fetch, turning a fetch failure
into a single error message followed by `st.stop()`; otherwise branch on
`len(symbols) == 1` into the single- or multi-symbol page (the multi page
crashes when the shaping loop raises a `KeyError`). -/
def runApp (symbolInput : String)
    (fetch : List String → Except String RawFetchResult) (showMa : Bool) :
    List Effect :=
  match normalizeSymbols symbolInput with
  | [] => [Effect.warning promptMsg]
  | sym :: rest =>
    Effect.fetchAttempt (sym :: rest) ::
    match fetch (sym :: rest) with
    | Except.error e =>
      [Effect.errorMsg ("Failed to fetch stock data: " ++ e)]
    | Except.ok raw =>
      if rest.isEmpty then
        match raw with
        | RawFetchResult.single s => singleEffects sym s showMa
        | RawFetchResult.multiple _ => [Effect.crash "unexpected fetch shape"]
      else
        match raw with
        | RawFetchResult.multiple m =>
          match shapeMulti (sym :: rest) m with
          | Except.error e => [Effect.crash e]
          | Except.ok rows => multiEffects (sym :: rest) rows
        | RawFetchResult.single _ => [Effect.crash "unexpected fetch shape"]

/-- Is the effect an `st.error` message? -/
def Effect.isErrorMsg : Effect → Bool
  | Effect.errorMsg _ => true
  | _ => false

/-- Is the effect a rendering or export action (preview, chart, download)? -/
def Effect.isRenderOrExport : Effect → Bool
  | Effect.preview _ _ => true
  | Effect.chart _ _ => true
  | Effect.download _ _ _ => true
  | _ => false

/-- The download payloads among the effects of a run. -/
def downloadsOf (effs : List Effect) :
    List (String × List String × List Observation) :=
  effs.filterMap fun e =>
    match e with
    | Effect.download f cols rows => some (f, cols, rows)
    | _ => none

/-- C6: when the fetch collaborator fails, the run consists of the fetch
attempt followed by exactly one user-visible error message; no rendering or
export effect occurs. -/
theorem fetch_failure_single_message (input : String)
    (fetch : List String → Except String RawFetchResult) (showMa : Bool)
    (e : String)
    (h1 : normalizeSymbols input ≠ [])
    (h2 : fetch (normalizeSymbols input) = Except.error e) :
    runApp input fetch showMa =
      [Effect.fetchAttempt (normalizeSymbols input),
       Effect.errorMsg ("Failed to fetch stock data: " ++ e)] ∧
    ((runApp input fetch showMa).filter Effect.isErrorMsg).length = 1 ∧
    ∀ ef ∈ runApp input fetch showMa, Effect.isRenderOrExport ef = false := by
  cases hn : normalizeSymbols input with
  | nil => exact absurd hn h1
  | cons sym rest =>
    rw [hn] at h2
    have hrun : runApp input fetch showMa =
        [Effect.fetchAttempt (sym :: rest),
         Effect.errorMsg ("Failed to fetch stock data: " ++ e)] := by
      unfold runApp
      rw [hn]
      dsimp only
      rw [h2]
    refine ⟨by rw [hrun], ?_, ?_⟩
    · rw [hrun]
      rfl
    · intro ef hef
      rw [hrun] at hef
      rcases List.mem_cons.mp hef with h | h
      · subst h; rfl
      · rcases List.mem_cons.mp h with h | h
        · subst h; rfl
        · cases h

/-- Witness for C6: a concrete failing fetch produces exactly the fetch
attempt and one error message. -/
theorem fetch_failure_single_message_witness :
    runApp "AAPL" (fun _ => Except.error "boom") true =
      [Effect.fetchAttempt (normalizeSymbols "AAPL"),
       Effect.errorMsg ("Failed to fetch stock data: " ++ "boom")] ∧
    ((runApp "AAPL" (fun _ => Except.error "boom") true).filter
      Effect.isErrorMsg).length = 1 ∧
    ∀ ef ∈ runApp "AAPL" (fun _ => Except.error "boom") true,
      Effect.isRenderOrExport ef = false :=
  fetch_failure_single_message "AAPL" (fun _ => Except.error "boom") true
    "boom" (by decide) rfl

/-- C8: when the resolved symbol list is empty, the run is exactly the
neutral prompt: no fetch attempt, no error message, and the outcome does not
depend on the fetch collaborator at all. -/
theorem empty_input_prompt (input : String)
    (fetch : List String → Except String RawFetchResult) (showMa : Bool)
    (h : normalizeSymbols input = []) :
    runApp input fetch showMa = [Effect.warning promptMsg] ∧
    (∀ syms, Effect.fetchAttempt syms ∉ runApp input fetch showMa) ∧
    (∀ msg, Effect.errorMsg msg ∉ runApp input fetch showMa) ∧
    ∀ fetch2 : List String → Except String RawFetchResult,
      runApp input fetch showMa = runApp input fetch2 showMa := by
  have hrun : ∀ f : List String → Except String RawFetchResult,
      runApp input f showMa = [Effect.warning promptMsg] := by
    intro f
    unfold runApp
    rw [h]
  refine ⟨hrun fetch, ?_, ?_, fun fetch2 => (hrun fetch).trans (hrun fetch2).symm⟩
  · intro syms hmem
    rw [hrun fetch] at hmem
    rcases List.mem_cons.mp hmem with hc | hc
    · cases hc
    · cases hc
  · intro msg hmem
    rw [hrun fetch] at hmem
    rcases List.mem_cons.mp hmem with hc | hc
    · cases hc
    · cases hc

/-- Witness for C8: the input `" , ,"` resolves to no symbols, and the run
is exactly the prompt, for an arbitrarily chosen fetch collaborator. -/
theorem empty_input_prompt_witness :
    runApp " , ," (fun _ => Except.error "unused") false =
      [Effect.warning promptMsg] ∧
    (∀ syms, Effect.fetchAttempt syms ∉
      runApp " , ," (fun _ => Except.error "unused") false) ∧
    (∀ msg, Effect.errorMsg msg ∉
      runApp " , ," (fun _ => Except.error "unused") false) ∧
    ∀ fetch2 : List String → Except String RawFetchResult,
      runApp " , ," (fun _ => Except.error "unused") false =
        runApp " , ," fetch2 false :=
  empty_input_prompt " , ," (fun _ => Except.error "unused") false (by decide)

/-- C10: for a single-symbol request, the CSV download is the shaped frame
with exactly the shaped columns — identical whether the moving-average
checkbox is on or off — and no moving-average column exists among the
exported columns. -/
theorem show_ma_no_frame_effect (input : String)
    (fetch : List String → Except String RawFetchResult)
    (sym : String) (s : Series)
    (h1 : normalizeSymbols input = [sym])
    (h2 : fetch [sym] = Except.ok (RawFetchResult.single s)) :
    downloadsOf (runApp input fetch true) =
      downloadsOf (runApp input fetch false) ∧
    downloadsOf (runApp input fetch true) =
      [(singleFileName sym, singleCols, shapeSingle sym s)] ∧
    "7-Day MA" ∉ singleCols := by
  have hrun : ∀ b : Bool, runApp input fetch b =
      Effect.fetchAttempt [sym] :: singleEffects sym s b := by
    intro b
    unfold runApp
    rw [h1]
    dsimp only
    rw [h2]
    rfl
  have hdl : ∀ b : Bool,
      downloadsOf (Effect.fetchAttempt [sym] :: singleEffects sym s b) =
      [(singleFileName sym, singleCols, shapeSingle sym s)] := by
    intro b
    cases b <;> rfl
  refine ⟨?_, ?_, by decide⟩
  · rw [hrun true, hrun false, hdl true, hdl false]
  · rw [hrun true, hdl true]

/-- Witness for C10: a concrete lower-case input resolving to AAPL with a
concrete fetched series; the download payload is the same with the overlay
on and off. -/
theorem show_ma_no_frame_effect_witness :
    downloadsOf (runApp "aapl"
        (fun _ => Except.ok (RawFetchResult.single aaplSeries)) true) =
      downloadsOf (runApp "aapl"
        (fun _ => Except.ok (RawFetchResult.single aaplSeries)) false) ∧
    downloadsOf (runApp "aapl"
        (fun _ => Except.ok (RawFetchResult.single aaplSeries)) true) =
      [(singleFileName "AAPL", singleCols, shapeSingle "AAPL" aaplSeries)] ∧
    "7-Day MA" ∉ singleCols :=
  show_ma_no_frame_effect "aapl"
    (fun _ => Except.ok (RawFetchResult.single aaplSeries)) "AAPL" aaplSeries
    (by decide) rfl
